import Mathlib

/-!
Shallow embedding of the job-orchestrator core (SQLAlchemy/Python source)
into Lean 4, for checking the natural-language specification against the
code.

Modelling conventions:
* Timestamps are rationals (absolute instants); `now` is passed explicitly
  to each operation, as the source calls `datetime.now()`.
* UUIDs and worker ids are natural numbers; JSON documents (payload,
  result) are opaque naturals.
* The database is an explicit `OrchState` record of row lists; a command
  is a function `OrchState → args → Except OrchError (OrchState × ret)`,
  where `.error` models an exception propagating out of the transaction
  (full rollback: no state change).
* `random.uniform(0, x)` (retry jitter) and `random.choices` are modelled
  by explicit parameters; `croniter(...).get_next` is an uninterpreted
  parameter `cronNext : String → ℚ → Option ℚ` (`none` = the exception /
  missing-library path that the source swallows).
* `JobEventLog.meta` (a JSON blob of diagnostic context) is not modelled;
  no claim inspects it.
-/

/-- `JobStatus` from `app/domain/states.py`. -/
inductive JobStatus where
  | pending
  | leased
  | running
  | succeeded
  | failed_retryable
  | failed_final
  | canceled
  | dlq
deriving DecidableEq

/-- `JobEvent` from `app/domain/states.py`. -/
inductive JobEvent where
  | created
  | leased
  | lease_renewed
  | started
  | completed
  | failed
  | retried
  | canceled
  | dlq_routed
deriving DecidableEq

/-- `Tenant` row (`app/db/models.py`). Policy fields used by dispatch. -/
structure Tenant where
  id : ℕ
  weight : ℤ
  max_inflight : ℕ
deriving DecidableEq

/-- `Job` row (`app/db/models.py`, plus the `cron_schedule` column used by
`app/commands/lease_job.py`). `available_at` is `Option` to reflect the
source's `if job.available_at` truthiness checks. -/
structure Job where
  id : ℕ
  tenant_id : ℕ
  status : JobStatus
  priority : ℤ
  created_at : ℚ
  updated_at : ℚ
  available_at : Option ℚ
  started_at : Option ℚ
  execution_timeout : Option ℚ
  attempts : ℕ
  max_attempts : ℕ
  last_error : Option String
  idempotency_key : Option String
  payload : ℕ
  result : Option ℕ
  cron_schedule : Option String
deriving DecidableEq

/-- `JobLease` row (`app/db/models.py`). `job_id` is the primary key. -/
structure JobLease where
  job_id : ℕ
  worker_id : ℕ
  lease_token : ℕ
  expires_at : ℚ
  last_heartbeat_at : ℚ
deriving DecidableEq

/-- `JobEventLog` row (`app/db/models.py`), `meta` omitted. -/
structure JobEventLog where
  job_id : ℕ
  event_type : JobEvent
  timestamp : ℚ
deriving DecidableEq

/-- `JobCompletion` row (`app/db/models.py`): completion ledger keyed by
`(job_id, idempotency_key)`. -/
structure JobCompletion where
  job_id : ℕ
  idem_key : String
deriving DecidableEq

/-- `OutboxEvent` row as written by `app/commands/complete_job.py`
(`event_type` plus the payload fields it stores). -/
structure OutboxEvent where
  event_type : String
  job_id : ℕ
  tenant_id : ℕ
  result : Option ℕ
  completed_at : ℚ
deriving DecidableEq

/-- The durable store: one list per table. -/
structure OrchState where
  tenants : List Tenant
  jobs : List Job
  leases : List JobLease
  events : List JobEventLog
  completions : List JobCompletion
  outbox : List OutboxEvent
deriving DecidableEq

/-- Error kinds raised by the commands (`app/domain/errors.py`). -/
inductive OrchError where
  | jobNotFound
  | invalidJobState
  | leaseNotFound
  | leaseExpired
deriving DecidableEq

/-- `SELECT ... FROM jobs WHERE id = job_id` (`scalar_one_or_none`). -/
def findJob (s : OrchState) (job_id : ℕ) : Option Job :=
  s.jobs.find? (fun j => j.id == job_id)

/-- `UPDATE jobs SET ... WHERE id = job_id`: map one row through `f`. -/
def updateJob (jobs : List Job) (job_id : ℕ) (f : Job → Job) : List Job :=
  jobs.map (fun j => if j.id == job_id then f j else j)

/-- `calculate_next_run` from `app/domain/retry.py`, split so theorems can
speak about the delay: the deterministic part
`min(base * 2^(min(max(attempts,0), 20)), max_delay)`, written exactly as
the source computes it (clamp negatives, cap the exponent, cap the
product). -/
def backoffDelayCore (attempts : ℤ) (base_delay_seconds max_delay_seconds : ℚ) : ℚ :=
  let a : ℤ := if attempts < 0 then 0 else attempts
  let safe_attempts : ℤ := min a 20
  let delay := base_delay_seconds * 2 ^ safe_attempts.toNat
  if delay > max_delay_seconds then max_delay_seconds else delay

/-- The full delay of `calculate_next_run`: core delay plus jitter. The
source adds `random.uniform(0, 0.1 * delay)`; the drawn value is the
explicit parameter `jit` (theorems hypothesise `0 ≤ jit ≤ delay / 10`). -/
def backoffDelay (attempts : ℤ) (base_delay_seconds max_delay_seconds : ℚ)
    (jitter : Bool) (jit : ℚ) : ℚ :=
  let delay := backoffDelayCore attempts base_delay_seconds max_delay_seconds
  if jitter then delay + jit else delay

/-- `calculate_next_run(attempts, ...)` returns `datetime.now() + delay`. -/
def calculate_next_run (attempts : ℤ) (base_delay_seconds max_delay_seconds : ℚ)
    (jitter : Bool) (jit : ℚ) (now : ℚ) : ℚ :=
  now + backoffDelay attempts base_delay_seconds max_delay_seconds jitter jit

/-- `fail_job` from `app/commands/fail_job.py`. Loads the job (404 when
absent), increments `attempts` with no status or lease verification (the
source comment says lease verification is "skipped"), routes to `DLQ` when
`attempts >= max_attempts` and otherwise back to `PENDING` with
`available_at := calculate_next_run(attempts)` (defaults: base 10s, max
3600s, jitter on), deletes any lease rows of the job, and appends the
`DLQ_ROUTED` / `RETRIED` event. It adds no outbox row. `lease_token` is
only recorded in the (unmodelled) event meta. -/
def fail_job (s : OrchState) (job_id : ℕ) (error : String)
    (lease_token : Option ℕ) (now : ℚ) (jit : ℚ) :
    Except OrchError (OrchState × Job) :=
  match findJob s job_id with
  | none => .error .jobNotFound
  | some job =>
    let attempts := job.attempts + 1
    let isDlq : Bool := decide (attempts ≥ job.max_attempts)
    let job' : Job :=
      if isDlq then
        { job with status := .dlq, last_error := some error,
                   updated_at := now, attempts := attempts }
      else
        { job with status := .pending,
                   available_at := some (calculate_next_run attempts 10 3600 true jit now),
                   last_error := some error, updated_at := now, attempts := attempts }
    let next_event : JobEvent := if isDlq then .dlq_routed else .retried
    let s' : OrchState :=
      { s with jobs := updateJob s.jobs job_id (fun _ => job'),
               leases := s.leases.filter (fun l => ¬ l.job_id == job_id),
               events := s.events ++ [⟨job_id, next_event, now⟩] }
    .ok (s', job')

/-- `cancel_job` from `app/api/v1/jobs.py`. 404 when absent; returns the
job unchanged when its status is in `[SUCCEEDED, FAILED_FINAL, CANCELED]`
(note: `DLQ` is NOT in that list); otherwise sets `status := CANCELED`,
`updated_at := now` and appends a `CANCELED` event. The source does NOT
delete the job's lease (its comment: "logic omitted for brevity"). -/
def cancel_job (s : OrchState) (job_id : ℕ) (now : ℚ) :
    Except OrchError (OrchState × Job) :=
  match findJob s job_id with
  | none => .error .jobNotFound
  | some job =>
    if job.status = .succeeded ∨ job.status = .failed_final ∨ job.status = .canceled then
      .ok (s, job)
    else
      let job' : Job := { job with status := .canceled, updated_at := now }
      let s' : OrchState :=
        { s with jobs := updateJob s.jobs job_id (fun _ => job'),
                 events := s.events ++ [⟨job_id, .canceled, now⟩] }
      .ok (s', job')

/-- `complete_job` from `app/commands/complete_job.py`. Load job (404 when
absent). If an `idempotency_key` is given, look up the completion ledger
by the KEY ALONE (`where(JobCompletion.idempotency_key == idempotency_key)`
— no `job_id` filter); if any row matches, return the current job with no
state change (the source re-reads the same job when it is not SUCCEEDED);
otherwise insert the `(job_id, key)` ledger row (the `IntegrityError`
branch of the source is a concurrent-replay race, unreachable in this
sequential model since no row with the key exists). Then: already
`SUCCEEDED` ⇒ idempotent no-op; status outside `{LEASED, RUNNING}` ⇒
`InvalidJobState` (transaction rolls back, ledger insert included); a
supplied `lease_token` must match an existing lease of the job, else
`InvalidJobState`. Finally set `status := SUCCEEDED`, store the result,
delete the lease (the matched one, else every lease of the job), append
the `COMPLETED` event and the `JOB_COMPLETED` outbox row. -/
def complete_job (s : OrchState) (job_id : ℕ) (result_data : ℕ)
    (lease_token : Option ℕ) (idempotency_key : Option String) (now : ℚ) :
    Except OrchError (OrchState × Job) :=
  match findJob s job_id with
  | none => .error .jobNotFound
  | some job =>
    let ledgerHit : Bool :=
      match idempotency_key with
      | some k => (s.completions.find? (fun c => c.idem_key == k)).isSome
      | none => false
    if ledgerHit then
      -- Already processed (possibly by another job sharing the key):
      -- return the current job, mutate nothing.
      .ok (s, job)
    else
      let completions' : List JobCompletion :=
        match idempotency_key with
        | some k => s.completions ++ [⟨job_id, k⟩]
        | none => s.completions
      if job.status = .succeeded then
        .ok ({ s with completions := completions' }, job)
      else if ¬ (job.status = .leased ∨ job.status = .running) then
        .error .invalidJobState
      else
        let leaseMatch : Option JobLease :=
          match lease_token with
          | some t => s.leases.find? (fun l => l.job_id == job_id && l.lease_token == t)
          | none => none
        if lease_token.isSome ∧ leaseMatch.isNone then
          .error .invalidJobState
        else
          let job' : Job := { job with status := .succeeded,
                                       result := some result_data, updated_at := now }
          let leases' : List JobLease :=
            match leaseMatch with
            | some l0 => s.leases.filter (fun l => ¬ l == l0)
            | none => s.leases.filter (fun l => ¬ l.job_id == job_id)
          let s' : OrchState :=
            { s with jobs := updateJob s.jobs job_id (fun _ => job'),
                     completions := completions',
                     leases := leases',
                     events := s.events ++ [⟨job_id, .completed, now⟩],
                     outbox := s.outbox ++
                       [⟨"JOB_COMPLETED", job_id, job.tenant_id, some result_data, now⟩] }
          .ok (s', job')

/-- Eligibility filter of `_build_job_query` (`app/commands/lease_job.py`):
`status = PENDING AND available_at <= now AND tenant_id = T`. A `NULL`
`available_at` never satisfies the SQL comparison. -/
def jobEligible (j : Job) (tenant_id : ℕ) (now : ℚ) : Bool :=
  j.status == .pending && j.tenant_id == tenant_id &&
    (match j.available_at with
     | some a => decide (a ≤ now)
     | none => false)

/-- `ORDER BY priority DESC, available_at ASC`: `a` strictly precedes `b`. -/
def jobPrecedes (a b : Job) : Bool :=
  b.priority < a.priority ||
    (a.priority == b.priority && a.available_at.getD 0 < b.available_at.getD 0)

/-- `_build_job_query(...).limit(1)`: the best eligible row (ties keep the
earlier row; the SQL order is unspecified on full ties). Skip-locked
row-locking has no sequential content. -/
def selectJob (s : OrchState) (tenant_id : ℕ) (now : ℚ) : Option Job :=
  (s.jobs.filter (fun j => jobEligible j tenant_id now)).foldl
    (fun acc j =>
      match acc with
      | none => some j
      | some b => if jobPrecedes j b then some j else some b)
    none

/-- `_handle_cron_recurrence` from `app/commands/lease_job.py`:
`base_time := job.available_at or now`; `cronNext` is
`croniter(sch, base_time).get_next` (`none` models the `ImportError` /
invalid-expression path the source swallows). When a next fire time IS
obtained, the source then evaluates `Job(..., status=JobStatus.SCHEDULED,
...)` — but `JobStatus` (`app/domain/states.py`) has no member
`SCHEDULED`, so this raises `AttributeError`, which the trailing
`except Exception` swallows after logging: NO recurrence row is ever
inserted, on any path. -/
def handle_cron_recurrence (s : OrchState) (job : Job) (now : ℚ)
    (cronNext : String → ℚ → Option ℚ) : OrchState :=
  match job.cron_schedule with
  | none => s
  | some sch =>
    let base_time : ℚ := match job.available_at with | some a => a | none => now
    match cronNext sch base_time with
    | none => s
    | some _next_run => s

/-- Pinned-tenant path of `lease_job` (`app/commands/lease_job.py`,
Case A; the dispatcher always calls `lease_job` with a concrete tenant):
select the best eligible row, set `status := LEASED`,
`started_at := now`, `updated_at := now`, insert the lease
(`expires_at := now + duration`, fresh token), append the `LEASED` event,
and — when the job carries a `cron_schedule` — run
`_handle_cron_recurrence` in the same transaction. -/
def lease_job (s : OrchState) (worker_id : ℕ) (tenant_id : ℕ) (duration : ℚ)
    (now : ℚ) (lease_token : ℕ)
    (cronNext : String → ℚ → Option ℚ) : Option (OrchState × Job × JobLease) :=
  let expires_at := now + duration
  match selectJob s tenant_id now with
  | none => none
  | some found =>
    let job' : Job := { found with status := .leased, updated_at := now,
                                   started_at := some now }
    let lease : JobLease := ⟨found.id, worker_id, lease_token, expires_at, now⟩
    let s1 : OrchState :=
      { s with jobs := updateJob s.jobs found.id (fun _ => job'),
               leases := s.leases ++ [lease],
               events := s.events ++ [⟨found.id, .leased, now⟩] }
    let s2 : OrchState :=
      if job'.cron_schedule.isSome then
        handle_cron_recurrence s1 job' now cronNext
      else s1
    some (s2, job', lease)

/-- One iteration of the reaper loop in `requeue_expired_jobs`
(`app/commands/requeue_expired.py`): lock the owning job (the foreign key
guarantees it exists; an absent job is modelled as a no-op), increment
`attempts`, set `last_error`, route to `DLQ` when
`attempts >= max_attempts` else back to `PENDING` with
`available_at := now`, delete the lease row, append the event. -/
def requeue_step (s : OrchState) (now : ℚ) (lease : JobLease) : OrchState :=
  match findJob s lease.job_id with
  | none => s
  | some job =>
    let attempts := job.attempts + 1
    let isDlq : Bool := decide (attempts ≥ job.max_attempts)
    let job' : Job :=
      if isDlq then
        { job with status := .dlq, attempts := attempts,
                   last_error := some "Lease expired (worker crash?)", updated_at := now }
      else
        { job with status := .pending, attempts := attempts,
                   available_at := some now,
                   last_error := some "Lease expired (worker crash?)", updated_at := now }
    let event_type : JobEvent := if isDlq then .dlq_routed else .retried
    { s with jobs := updateJob s.jobs lease.job_id (fun _ => job'),
             leases := s.leases.filter (fun l => ¬ l == lease),
             events := s.events ++ [⟨lease.job_id, event_type, now⟩] }

/-- `requeue_expired_jobs` (`app/commands/requeue_expired.py`): take up to
`limit` leases with `expires_at < now` and process each; return the new
state and the count. -/
def requeue_expired_jobs (s : OrchState) (now : ℚ) (limit : ℕ) : OrchState × ℕ :=
  let expired := (s.leases.filter (fun l => decide (l.expires_at < now))).take limit
  (expired.foldl (fun acc l => requeue_step acc now l) s, expired.length)

/-- `heartbeat` from `app/commands/heartbeat.py`: lease looked up by
`(job_id, lease_token)` (absent ⇒ `LeaseNotFound`); `expires_at < now` ⇒
`LeaseExpired`; when the job has both `execution_timeout` and
`started_at` and `now - started_at > execution_timeout` ⇒ `LeaseExpired`;
otherwise extend: `expires_at := now + extend_seconds`,
`last_heartbeat_at := now`, returning the new expiry. -/
def heartbeat (s : OrchState) (job_id : ℕ) (lease_token : ℕ)
    (extend_seconds : ℚ) (now : ℚ) : Except OrchError (OrchState × ℚ) :=
  match s.leases.find? (fun l => l.job_id == job_id && l.lease_token == lease_token) with
  | none => .error .leaseNotFound
  | some lease =>
    if lease.expires_at < now then .error .leaseExpired
    else
      let timedOut : Bool :=
        match findJob s job_id with
        | some job =>
          match job.execution_timeout, job.started_at with
          | some t, some st => decide (now - st > t)
          | _, _ => false
        | none => false
      if timedOut then .error .leaseExpired
      else
        let new_expires_at := now + extend_seconds
        let lease' : JobLease :=
          { lease with expires_at := new_expires_at, last_heartbeat_at := now }
        let s' : OrchState :=
          { s with leases := s.leases.map (fun l => if l == lease then lease' else l) }
        .ok (s', new_expires_at)

/-- Live leases of a tenant's jobs: lease rows joined to their job,
filtered by `expires_at > now` and the job's tenant (the dispatcher's
"inflight" count, `app/scheduler/dispatcher.py`). -/
def liveLeaseCount (s : OrchState) (tenant_id : ℕ) (now : ℚ) : ℕ :=
  (s.leases.filter (fun l =>
    decide (now < l.expires_at) &&
      ((findJob s l.job_id).map Job.tenant_id == some tenant_id))).length

/-- All leases of a tenant's jobs, with NO expiry filter — the
`inflight_counts_q` subquery of `lease_job`'s shared branch
(`app/commands/lease_job.py`) joins `Job` to `JobLease` with no
`expires_at` condition. -/
def allLeaseCount (s : OrchState) (tenant_id : ℕ) : ℕ :=
  (s.leases.filter (fun l =>
    (findJob s l.job_id).map Job.tenant_id == some tenant_id)).length

/-- Tenant has at least one due job: `status = PENDING AND
available_at <= now`. -/
def hasDueJob (s : OrchState) (tenant_id : ℕ) (now : ℚ) : Bool :=
  s.jobs.any (fun j => jobEligible j tenant_id now)

/-- The candidate pool of `dispatch_lease`'s shared branch
(`app/scheduler/dispatcher.py`): ALL tenants whose live-lease count is
below `max_inflight` — the query outer-joins jobs and leases, so a tenant
with no due (or no) jobs still qualifies. The weighted random draw
(`random.choices`) ranges over exactly this list. -/
def dispatchCandidatePool (s : OrchState) (now : ℚ) : List Tenant :=
  s.tenants.filter (fun t => liveLeaseCount s t.id now < t.max_inflight)

/-- The `active_tenants_q` set of `lease_job`'s shared branch
(`app/commands/lease_job.py`, Case B): tenants with at least one due
`PENDING` job AND whose TOTAL lease count (expired leases included) is
below `max_inflight`. -/
def leaseJobActiveTenants (s : OrchState) (now : ℚ) : List Tenant :=
  s.tenants.filter (fun t => hasDueJob s t.id now && allLeaseCount s t.id < t.max_inflight)

/-- Modelled from the spec (§4.2 step 1), for comparison with the two
source-side candidate sets: tenants with at least one job satisfying
`status = PENDING AND available_at ≤ now` AND whose live-lease count
(leases with `expires_at > now`) is strictly below `max_inflight`. -/
def activeTenantsSpec (s : OrchState) (now : ℚ) : List Tenant :=
  s.tenants.filter (fun t => hasDueJob s t.id now && liveLeaseCount s t.id now < t.max_inflight)

/-! ### Helper lemmas -/

/-- Replacing the row that `find?` locates (by the same id) makes `find?`
return the replacement, provided the replacement keeps the id. -/
theorem find?_updateJob (jobs : List Job) (job_id : ℕ) (j j' : Job)
    (hfind : jobs.find? (fun x => x.id == job_id) = some j) (hid : j'.id = job_id) :
    (updateJob jobs job_id (fun _ => j')).find? (fun x => x.id == job_id) = some j' := by
  induction jobs with
  | nil => simp [List.find?] at hfind
  | cons a l ih =>
    by_cases ha : a.id = job_id
    · simp [updateJob, List.find?, ha, hid]
    · have ha' : (a.id == job_id) = false := by simp [ha]
      simp only [List.find?, ha'] at hfind
      simpa [updateJob, List.find?, ha'] using ih hfind

/-- A job located by `findJob` carries the id it was looked up by. -/
theorem findJob_id (s : OrchState) (job_id : ℕ) (j : Job)
    (hfind : findJob s job_id = some j) : j.id = job_id := by
  have := List.find?_some hfind
  simpa using this

/-- The source's cap-and-clamp delay is the `min` of the claim's formula. -/
theorem backoffDelayCore_eq_min (attempts : ℤ) (b m : ℚ) :
    backoffDelayCore attempts b m
      = min (b * 2 ^ ((min (if attempts < 0 then 0 else attempts) 20).toNat)) m := by
  by_cases h : m < b * 2 ^ ((min (if attempts < 0 then 0 else attempts) 20).toNat)
  · simp [backoffDelayCore, h, min_eq_right (le_of_lt h)]
  · simp [backoffDelayCore, h, min_eq_left (not_lt.mp h)]

/-- The deterministic delay is nondecreasing in the attempt count. -/
theorem backoffDelayCore_mono (n : ℤ) (b m : ℚ) (hb : 0 ≤ b) :
    backoffDelayCore n b m ≤ backoffDelayCore (n + 1) b m := by
  rw [backoffDelayCore_eq_min, backoffDelayCore_eq_min]
  apply min_le_min _ le_rfl
  apply mul_le_mul_of_nonneg_left _ hb
  apply pow_le_pow_right₀ (by norm_num : (1:ℚ) ≤ 2)
  apply Int.toNat_le_toNat
  apply min_le_min _ le_rfl
  split <;> split <;> omega

/-- Counting only live leases never exceeds counting all leases. -/
theorem liveLeaseCount_le_allLeaseCount (s : OrchState) (t : ℕ) (now : ℚ) :
    liveLeaseCount s t now ≤ allLeaseCount s t := by
  unfold liveLeaseCount allLeaseCount
  rw [← List.countP_eq_length_filter, ← List.countP_eq_length_filter]
  apply List.countP_mono_left
  intro l _ hl
  simp only [Bool.and_eq_true] at hl
  exact hl.2

/-- Shared evaluation of `complete_job` on a ledger hit: when any
completion row carries the requested idempotency key, the call returns the
addressed job and changes nothing. -/
theorem complete_job_ledger_hit (s : OrchState) (job_id : ℕ) (result_data : ℕ)
    (lease_token : Option ℕ) (k : String) (now : ℚ) (j : Job) (c : JobCompletion)
    (hfind : findJob s job_id = some j) (hc : c ∈ s.completions)
    (hk : c.idem_key = k) :
    complete_job s job_id result_data lease_token (some k) now = .ok (s, j) := by
  have hsome : (s.completions.find? (fun c => c.idem_key == k)).isSome := by
    rw [List.find?_isSome]
    exact ⟨c, hc, by simp [hk]⟩
  simp [complete_job, hfind, hsome]

/-! ### Concrete fixtures -/

/-- A fresh default job: `PENDING`, due immediately, 3 attempts allowed. -/
def job0 : Job :=
  { id := 0, tenant_id := 0, status := .pending, priority := 0,
    created_at := 0, updated_at := 0, available_at := some 0,
    started_at := none, execution_timeout := none, attempts := 0,
    max_attempts := 3, last_error := none, idempotency_key := none,
    payload := 0, result := none, cron_schedule := none }

/-- A live lease on `job0` held by worker 1. -/
def lease0 : JobLease :=
  { job_id := 0, worker_id := 1, lease_token := 42,
    expires_at := 100, last_heartbeat_at := 0 }

/-- The empty store. -/
def emptyState : OrchState :=
  { tenants := [], jobs := [], leases := [], events := [],
    completions := [], outbox := [] }

/-- Tenant with weight 1 allowing one inflight job. -/
def tenant0 : Tenant := { id := 0, weight := 1, max_inflight := 1 }

/-- A store holding one `LEASED` job that owns a live lease. -/
def sC1 : OrchState :=
  { emptyState with
      jobs := [{ job0 with status := .leased, started_at := some 0 }],
      leases := [lease0] }

/-- A store holding one freshly leased job with two retries left. -/
def sC3 : OrchState := { emptyState with jobs := [job0], leases := [lease0] }

/-- A store holding one due cron job. -/
def sC4 : OrchState :=
  { emptyState with jobs := [{ job0 with cron_schedule := some "* * * * *" }] }

/-- One tenant, no jobs at all. -/
def sC5a : OrchState := { emptyState with tenants := [tenant0] }

/-- One tenant at its inflight cap, but only through an EXPIRED lease
(`expires_at = 1 < now = 10`), plus a due pending job. -/
def sC5b : OrchState :=
  { emptyState with
      tenants := [tenant0],
      jobs := [{ job0 with id := 5, status := .leased }, { job0 with id := 6 }],
      leases := [{ job_id := 5, worker_id := 1, lease_token := 2,
                   expires_at := 1, last_heartbeat_at := 0 }] }

/-- A store holding one pending job with `max_attempts = 1`. -/
def sC6 : OrchState := { emptyState with jobs := [{ job0 with max_attempts := 1 }] }

/-- A store holding one job that already reached the dead-letter queue. -/
def sC7 : OrchState := { emptyState with jobs := [{ job0 with status := .dlq }] }

/-! ### Claims -/

/-- C1: the claim asserts that every core operation preserves "a job has a
live lease iff its status is LEASED or RUNNING", and in particular that
`cancel` deletes the lease in the transaction that sets `CANCELED`.
The code violates this: `cancel_job` (`app/api/v1/jobs.py`) never deletes
the lease — its own comment concedes the deletion is "omitted for brevity,
but crucial for production". Evaluating the code on a `LEASED` job holding
a live lease: the status becomes `CANCELED` (not in `{LEASED, RUNNING}`)
while the lease row survives, breaking the iff. -/
theorem cancel_keeps_lease_c1 :
    (cancel_job sC1 0 5).toOption.map (fun p => (p.2.status, p.1.leases.length))
      = some (.canceled, 1) := by decide

/-- C2: completion is idempotent under the idempotency key — after a first
`complete` with key `k` stores `r1`, a second `complete` with the same key
(any result argument, any token) returns the current job and changes
nothing, so the stored result stays the first writer's. -/
theorem complete_idempotent_second_call_c2 :
    ∀ (s : OrchState) (job_id r1 r2 : ℕ) (tok2 : Option ℕ) (k : String)
      (now now2 : ℚ) (j : Job),
      findJob s job_id = some j → j.status = .leased →
      (∀ c ∈ s.completions, c.idem_key ≠ k) →
      ∃ s1 j1, complete_job s job_id r1 none (some k) now = .ok (s1, j1) ∧
        j1.result = some r1 ∧
        complete_job s1 job_id r2 tok2 (some k) now2 = .ok (s1, j1) := by
  intro s jid r1 r2 tok2 k now now2 j hfind hlease hfresh
  have hnone : s.completions.find? (fun c => c.idem_key == k) = none := by
    rw [List.find?_eq_none]
    intro c hc
    simpa using hfresh c hc
  have hid : j.id = jid := findJob_id s jid j hfind
  refine ⟨{ s with
      jobs := updateJob s.jobs jid
        (fun _ => { j with status := .succeeded, result := some r1, updated_at := now }),
      completions := s.completions ++ [⟨jid, k⟩],
      leases := s.leases.filter (fun l => ¬ l.job_id == jid),
      events := s.events ++ [⟨jid, .completed, now⟩],
      outbox := s.outbox ++ [⟨"JOB_COMPLETED", jid, j.tenant_id, some r1, now⟩] },
    { j with status := .succeeded, result := some r1, updated_at := now },
    ?_, rfl, ?_⟩
  · simp [complete_job, hfind, hnone, hlease]
  · have hfind1 : findJob { s with
        jobs := updateJob s.jobs jid
          (fun _ => { j with status := .succeeded, result := some r1, updated_at := now }),
        completions := s.completions ++ [⟨jid, k⟩],
        leases := s.leases.filter (fun l => ¬ l.job_id == jid),
        events := s.events ++ [⟨jid, .completed, now⟩],
        outbox := s.outbox ++ [⟨"JOB_COMPLETED", jid, j.tenant_id, some r1, now⟩] } jid
        = some { j with status := .succeeded, result := some r1, updated_at := now } :=
      find?_updateJob s.jobs jid j _ hfind (by simp [hid])
    exact complete_job_ledger_hit _ jid r2 tok2 k now2 _ ⟨jid, k⟩ hfind1 (by simp) rfl

/-- C2 witness: the two-call replay on a concrete leased job; the final
result is the first call's `11`, not the second call's `22`. -/
theorem complete_idempotent_second_call_c2_witness :
    ∃ s1 j1,
      complete_job { emptyState with jobs := [{ job0 with status := .leased }] }
          0 11 none (some "k") 1 = .ok (s1, j1) ∧
      j1.result = some 11 ∧
      complete_job s1 0 22 none (some "k") 2 = .ok (s1, j1) :=
  complete_idempotent_second_call_c2
    { emptyState with jobs := [{ job0 with status := .leased }] }
    0 11 22 none "k" 1 2 { job0 with status := .leased } rfl rfl (by simp [emptyState])

/-- C3 counterexample: the claim asserts every successful `fail` enqueues
an outbox row in the transaction; evaluating `fail_job` on a leased job
shows the call succeeds (lease deleted, `RETRIED` event appended, job back
to `PENDING`) with the outbox left empty. -/
theorem fail_outbox_counterexample_c3 :
    (fail_job sC3 0 "boom" none 0 0).toOption.map
        (fun p => (p.1.outbox.length, p.1.leases.length, p.1.events.length, p.2.status))
      = some (0, 0, 1, .pending) := by decide

/-- C3 amended: every successful `fail` deletes the job's leases and
appends the `RETRIED` / `DLQ_ROUTED` event in the same transaction, but it
enqueues NO outbox row — the outbox is unchanged. -/
theorem fail_transactional_effects_c3 :
    ∀ (s : OrchState) (job_id : ℕ) (error : String) (lease_token : Option ℕ)
      (now jit : ℚ) (j : Job), findJob s job_id = some j →
      ∃ s' j', fail_job s job_id error lease_token now jit = .ok (s', j') ∧
        s'.outbox = s.outbox ∧
        s'.leases = s.leases.filter (fun l => ¬ l.job_id == job_id) ∧
        s'.events = s.events ++
          [⟨job_id, if j.attempts + 1 ≥ j.max_attempts then .dlq_routed else .retried, now⟩] := by
  intro s jid err tok now jit j hfind
  by_cases h : j.attempts + 1 ≥ j.max_attempts
  all_goals
    rcases hres : fail_job s jid err tok now jit with e | p
  · simp [fail_job, hfind] at hres
  · refine ⟨p.1, p.2, rfl, ?_⟩
    simp only [fail_job, hfind, h] at hres
    simp only [Except.ok.injEq] at hres
    rw [← hres]
    simp [h]
  · simp [fail_job, hfind] at hres
  · refine ⟨p.1, p.2, rfl, ?_⟩
    simp only [fail_job, hfind, h] at hres
    simp only [Except.ok.injEq] at hres
    rw [← hres]
    simp [h]

/-- C3 amended witness: concrete run of `fail_job` on the leased job. -/
theorem fail_transactional_effects_c3_witness :
    ∃ s' j', fail_job sC3 0 "boom" none 0 0 = .ok (s', j') ∧
      s'.outbox = sC3.outbox ∧
      s'.leases = sC3.leases.filter (fun l => ¬ l.job_id == 0) ∧
      s'.events = sC3.events ++
        [⟨0, if job0.attempts + 1 ≥ job0.max_attempts then .dlq_routed else .retried, 0⟩] :=
  fail_transactional_effects_c3 sC3 0 "boom" none 0 0 job0 rfl

/-- C4: the claim asserts that leasing a cron-carrying job inserts, in the
same transaction, a fresh `SCHEDULED` job at the next fire time. The code
cannot do this: `JobStatus` (`app/domain/states.py`) has no `SCHEDULED`
member, so `_handle_cron_recurrence` raises `AttributeError` at
`JobStatus.SCHEDULED`, swallowed by its blanket `except Exception` — while
the repository's own `scripts/verify_scheduling.py` builds jobs with
`JobStatus.SCHEDULED` and asserts the recurrence row exists. Evaluating
the lease of a due job with `cron_schedule = "* * * * *"` and a working
next-fire function: the lease itself succeeds (job `LEASED`, one lease
row) but the job table still holds exactly the one original job — no
recurrence row was inserted. -/
theorem cron_recurrence_not_inserted_c4 :
    (lease_job sC4 1 0 30 0 7 (fun _ t => some (t + 60))).map
        (fun p => (p.1.jobs.length, p.1.leases.length, p.2.1.status))
      = some (1, 1, .leased) := by decide

/-- C5 counterexample: the claim says the weighted draw ranges exactly
over tenants with a due `PENDING` job and live-lease count below
`max_inflight`. In `dispatch_lease`, a tenant with no jobs at all is still
drawn (`sC5a`); in `lease_job`'s shared branch, a tenant whose only lease
is long expired is excluded (`sC5b`), though the spec set contains it. -/
theorem shared_dispatch_candidates_counterexample_c5 :
    dispatchCandidatePool sC5a 0 ≠ activeTenantsSpec sC5a 0 ∧
    leaseJobActiveTenants sC5b 10 ≠ activeTenantsSpec sC5b 10 := by decide

/-- C5 amended: `dispatch_lease` draws from ALL tenants whose live-lease
count is below `max_inflight` (no due-job requirement) — a superset of the
spec's active set; `lease_job`'s shared branch additionally requires a due
job but counts EVERY lease, expired ones included, against the cap — a
subset of the spec's active set. -/
theorem shared_dispatch_candidates_c5 :
    ∀ (s : OrchState) (now : ℚ) (t : Tenant),
      (t ∈ dispatchCandidatePool s now ↔
        t ∈ s.tenants ∧ liveLeaseCount s t.id now < t.max_inflight)
      ∧ (t ∈ leaseJobActiveTenants s now → t ∈ activeTenantsSpec s now)
      ∧ (t ∈ activeTenantsSpec s now → t ∈ dispatchCandidatePool s now) := by
  intro s now t
  refine ⟨?_, ?_, ?_⟩
  · simp [dispatchCandidatePool, List.mem_filter]
  · intro ht
    rw [leaseJobActiveTenants, List.mem_filter] at ht
    rw [activeTenantsSpec, List.mem_filter]
    refine ⟨ht.1, ?_⟩
    have h2 := ht.2
    simp only [Bool.and_eq_true, decide_eq_true_eq] at h2 ⊢
    exact ⟨h2.1, lt_of_le_of_lt (liveLeaseCount_le_allLeaseCount s t.id now) h2.2⟩
  · intro ht
    rw [activeTenantsSpec, List.mem_filter] at ht
    rw [dispatchCandidatePool, List.mem_filter]
    refine ⟨ht.1, ?_⟩
    have h2 := ht.2
    simp only [Bool.and_eq_true, decide_eq_true_eq] at h2 ⊢
    exact h2.2

/-- C5 amended witness: the spec-active tenant of `sC5b` is indeed in the
dispatcher's candidate pool. -/
theorem shared_dispatch_candidates_c5_witness :
    tenant0 ∈ dispatchCandidatePool sC5b 10 :=
  (shared_dispatch_candidates_c5 sC5b 10 tenant0).2.2 (by decide)

/-- C6 counterexample: the claim asserts `attempts ≤ max_attempts` after
every sequence of operations including repeated `fail` calls. Two `fail`
calls on a fresh job with `max_attempts = 1` drive `attempts` to `2 > 1`
(and the job is `DLQ` with `attempts ≠ max_attempts`, breaking the claimed
iff as well): `fail_job` increments unconditionally, with no terminal
check. -/
theorem attempts_exceed_max_counterexample_c6 :
    ((fail_job sC6 0 "e1" none 0 0).bind (fun p => fail_job p.1 0 "e2" none 0 0)).toOption.map
        (fun p => (p.2.attempts, p.2.max_attempts, p.2.status))
      = some (2, 1, .dlq) := by decide

/-- C6 amended: for a job with `attempts < max_attempts` BEFORE the
failure, both `fail` and the reaper's per-lease step keep
`attempts ≤ max_attempts` and land in `DLQ` exactly when
`attempts = max_attempts`; once a job sits at `attempts ≥ max_attempts`,
further `fail` calls push `attempts` beyond the bound (the code tests
`attempts ≥ max_attempts`, not equality). -/
theorem attempts_bounded_c6 :
    (∀ (s : OrchState) (job_id : ℕ) (error : String) (lease_token : Option ℕ)
       (now jit : ℚ) (j : Job), findJob s job_id = some j →
       j.attempts < j.max_attempts →
       ∃ s' j', fail_job s job_id error lease_token now jit = .ok (s', j') ∧
         j'.attempts ≤ j.max_attempts ∧ j'.max_attempts = j.max_attempts ∧
         (j'.status = .dlq ↔ j'.attempts = j.max_attempts))
    ∧ (∀ (s : OrchState) (now : ℚ) (lease : JobLease) (j : Job),
       findJob s lease.job_id = some j → j.attempts < j.max_attempts →
       ∃ j', findJob (requeue_step s now lease) lease.job_id = some j' ∧
         j'.attempts ≤ j.max_attempts ∧ j'.max_attempts = j.max_attempts ∧
         (j'.status = .dlq ↔ j'.attempts = j.max_attempts)) := by
  constructor
  · intro s jid err tok now jit j hfind hlt
    by_cases h : j.attempts + 1 ≥ j.max_attempts
    all_goals
      rcases hres : fail_job s jid err tok now jit with e | p
    · simp [fail_job, hfind] at hres
    · refine ⟨p.1, p.2, rfl, ?_⟩
      simp only [fail_job, hfind, h] at hres
      simp only [Except.ok.injEq] at hres
      rw [← hres]
      simp [h]
      omega
    · simp [fail_job, hfind] at hres
    · refine ⟨p.1, p.2, rfl, ?_⟩
      simp only [fail_job, hfind, h] at hres
      simp only [Except.ok.injEq] at hres
      rw [← hres]
      simp [h]
      omega
  · intro s now lease j hfind hlt
    have hid : j.id = lease.job_id := findJob_id s lease.job_id j hfind
    by_cases h : j.attempts + 1 ≥ j.max_attempts
    · have hstep : requeue_step s now lease =
          { s with
            jobs := updateJob s.jobs lease.job_id (fun _ =>
              { j with status := .dlq, attempts := j.attempts + 1,
                       last_error := some "Lease expired (worker crash?)",
                       updated_at := now }),
            leases := s.leases.filter (fun l => ¬ l == lease),
            events := s.events ++ [⟨lease.job_id, .dlq_routed, now⟩] } := by
        simp [requeue_step, hfind, h]
      refine ⟨{ j with status := .dlq, attempts := j.attempts + 1,
                       last_error := some "Lease expired (worker crash?)",
                       updated_at := now }, ?_, ?_, ?_, ?_⟩
      · rw [hstep]
        exact find?_updateJob s.jobs lease.job_id j _ hfind (by simpa using hid)
      · simp
        omega
      · simp
      · simp
        omega
    · have hstep : requeue_step s now lease =
          { s with
            jobs := updateJob s.jobs lease.job_id (fun _ =>
              { j with status := .pending, attempts := j.attempts + 1,
                       available_at := some now,
                       last_error := some "Lease expired (worker crash?)",
                       updated_at := now }),
            leases := s.leases.filter (fun l => ¬ l == lease),
            events := s.events ++ [⟨lease.job_id, .retried, now⟩] } := by
        simp [requeue_step, hfind, h]
      refine ⟨{ j with status := .pending, attempts := j.attempts + 1,
                       available_at := some now,
                       last_error := some "Lease expired (worker crash?)",
                       updated_at := now }, ?_, ?_, ?_, ?_⟩
      · rw [hstep]
        exact find?_updateJob s.jobs lease.job_id j _ hfind (by simpa using hid)
      · simp
        omega
      · simp
      · simp
        omega

/-- C6 amended witness: a first failure of the fresh 3-attempt job, via
`fail` and via the reaper step. -/
theorem attempts_bounded_c6_witness :
    (∃ s' j', fail_job sC3 0 "e" none 0 0 = .ok (s', j') ∧
      j'.attempts ≤ 3 ∧ j'.max_attempts = 3 ∧ (j'.status = .dlq ↔ j'.attempts = 3))
    ∧ (∃ j', findJob (requeue_step sC3 0 lease0) 0 = some j' ∧
      j'.attempts ≤ 3 ∧ j'.max_attempts = 3 ∧ (j'.status = .dlq ↔ j'.attempts = 3)) :=
  ⟨attempts_bounded_c6.1 sC3 0 "e" none 0 0 job0 rfl (by decide),
   attempts_bounded_c6.2 sC3 0 lease0 job0 rfl (by decide)⟩

/-- C7 counterexample: the claim says cancel leaves every terminal job —
DLQ included — unchanged; but `cancel_job`'s terminal list is only
`[SUCCEEDED, FAILED_FINAL, CANCELED]`, so a `DLQ` job is moved to
`CANCELED`. -/
theorem cancel_dlq_counterexample_c7 :
    (cancel_job sC7 0 5).toOption.map (fun p => p.2.status) = some .canceled := by decide

/-- C7 amended: cancel returns the job unchanged exactly for
`SUCCEEDED`, `FAILED_FINAL` and `CANCELED`; a `DLQ` job is instead moved
to `CANCELED` (with a `CANCELED` event appended). -/
theorem cancel_terminal_c7 :
    ∀ (s : OrchState) (job_id : ℕ) (now : ℚ) (j : Job),
      findJob s job_id = some j →
      ((j.status = .succeeded ∨ j.status = .failed_final ∨ j.status = .canceled) →
        cancel_job s job_id now = .ok (s, j))
      ∧ (j.status = .dlq →
        cancel_job s job_id now
          = .ok ({ s with
              jobs := updateJob s.jobs job_id
                (fun _ => { j with status := .canceled, updated_at := now }),
              events := s.events ++ [⟨job_id, .canceled, now⟩] },
            { j with status := .canceled, updated_at := now })) := by
  intro s jid now j hfind
  constructor
  · intro hterm
    simp [cancel_job, hfind, hterm]
  · intro hdlq
    simp [cancel_job, hfind, hdlq]

/-- C7 amended witness: cancelling a `SUCCEEDED` job is a no-op. -/
theorem cancel_terminal_c7_witness :
    cancel_job { emptyState with jobs := [{ job0 with status := .succeeded }] } 0 3
      = .ok ({ emptyState with jobs := [{ job0 with status := .succeeded }] },
             { job0 with status := .succeeded }) :=
  (cancel_terminal_c7 { emptyState with jobs := [{ job0 with status := .succeeded }] }
    0 3 { job0 with status := .succeeded } rfl).1 (Or.inl rfl)

/-- C8: the retry delay is `min(10 * 2^min(attempts, 20), 3600)` (the
claim's formula, for `attempts ≥ 0`), plus a jitter drawn from
`[0, delay / 10]`; consequently every jittered delay is at most
`3600 * 1.1`, the deterministic delay is nondecreasing, and the jittered
delay is nondecreasing as long as the next step is still below
`max_delay` (the claim's "up to max_delay"). -/
theorem backoff_bounds_c8 :
    (∀ (n : ℤ) (jit : ℚ), 0 ≤ jit → jit ≤ backoffDelayCore n 10 3600 / 10 →
        backoffDelay n 10 3600 true jit ≤ 3600 * (11 / 10))
    ∧ (∀ n : ℤ, backoffDelay n 10 3600 false 0 ≤ backoffDelay (n + 1) 10 3600 false 0)
    ∧ (∀ (n : ℕ) (j₁ j₂ : ℚ), 0 ≤ j₁ → j₁ ≤ backoffDelayCore (↑n) 10 3600 / 10 → 0 ≤ j₂ →
        10 * 2 ^ (n + 1) ≤ (3600 : ℚ) →
        backoffDelay (↑n) 10 3600 true j₁ ≤ backoffDelay (↑n + 1) 10 3600 true j₂)
    ∧ (∀ n : ℤ, 0 ≤ n →
        backoffDelayCore n 10 3600 = min (10 * 2 ^ (min n 20).toNat) 3600) := by
  refine ⟨?_, ?_, ?_, ?_⟩
  · intro n jit h0 hj
    have hcore : backoffDelayCore n 10 3600 ≤ 3600 := by
      rw [backoffDelayCore_eq_min]
      exact min_le_right _ _
    simp only [backoffDelay, if_true]
    linarith
  · intro n
    simpa [backoffDelay] using backoffDelayCore_mono n 10 3600 (by norm_num)
  · intro n j1 j2 h1 h2 h3 hcap
    have hmono : (2:ℚ) ^ n ≤ 2 ^ (n + 1) := pow_le_pow_right₀ (by norm_num) (Nat.le_succ n)
    have h20 : n + 1 ≤ 20 := by
      by_contra hgt
      push_neg at hgt
      have hp : (2:ℚ) ^ 21 ≤ 2 ^ (n + 1) := pow_le_pow_right₀ (by norm_num) (by omega)
      have hb : (10:ℚ) * 2 ^ 21 ≤ 3600 := le_trans (by linarith) hcap
      norm_num at hb
    have hle : (10:ℚ) * 2 ^ n ≤ 3600 := by linarith
    have hcore1 : backoffDelayCore (↑n) 10 3600 = 10 * 2 ^ n := by
      rw [backoffDelayCore_eq_min]
      rw [if_neg (by omega : ¬ ((↑n:ℤ) < 0))]
      rw [min_eq_left (by omega : (↑n:ℤ) ≤ 20)]
      rw [Int.toNat_natCast]
      exact min_eq_left hle
    have hcore2 : backoffDelayCore (↑n + 1) 10 3600 = 10 * 2 ^ (n + 1) := by
      rw [backoffDelayCore_eq_min]
      rw [if_neg (by omega : ¬ ((↑n:ℤ) + 1 < 0))]
      rw [min_eq_left (by omega : (↑n:ℤ) + 1 ≤ 20)]
      have he : ((↑n:ℤ) + 1).toNat = n + 1 := by omega
      rw [he]
      exact min_eq_left hcap
    rw [hcore1] at h2
    simp only [backoffDelay, if_true]
    rw [hcore1, hcore2]
    have hpow : (2:ℚ) ^ (n + 1) = 2 * 2 ^ n := by ring
    have hx : (0:ℚ) ≤ 2 ^ n := by positivity
    linarith
  · intro n hn
    rw [backoffDelayCore_eq_min, if_neg (by omega)]

/-- C8 witness: the bound at `n = 3` with jitter `1`, and jittered
monotonicity from attempt 2 to 3. -/
theorem backoff_bounds_c8_witness :
    backoffDelay 3 10 3600 true 1 ≤ 3600 * (11 / 10) ∧
    backoffDelay 2 10 3600 true 0 ≤ backoffDelay (2 + 1) 10 3600 true 0 :=
  ⟨backoff_bounds_c8.1 3 1 (by norm_num)
     (by rw [backoffDelayCore_eq_min]; norm_num [show Int.toNat 3 = 3 from rfl]),
   backoff_bounds_c8.2.2.1 2 0 0 le_rfl
     (by rw [backoffDelayCore_eq_min]
         norm_num [show Int.toNat 2 = 2 from rfl]) le_rfl (by norm_num)⟩

/-- C9: `fail_job` performs no state-machine or lease verification — for
every existing job, whatever its status (terminal ones included) and
whatever token is supplied, the call succeeds, increments `attempts` and
moves the job to `PENDING` or `DLQ`. -/
theorem fail_unverified_c9 :
    ∀ (s : OrchState) (job_id : ℕ) (error : String) (lease_token : Option ℕ)
      (now jit : ℚ) (j : Job), findJob s job_id = some j →
      ∃ s' j', fail_job s job_id error lease_token now jit = .ok (s', j') ∧
        j'.attempts = j.attempts + 1 ∧
        (j'.status = .pending ∨ j'.status = .dlq) := by
  intro s jid err tok now jit j hfind
  by_cases h : j.attempts + 1 ≥ j.max_attempts
  · rcases hres : fail_job s jid err tok now jit with e | p
    · simp [fail_job, hfind] at hres
    · refine ⟨p.1, p.2, rfl, ?_⟩
      simp only [fail_job, hfind, h] at hres
      simp only [Except.ok.injEq] at hres
      rw [← hres]
      simp [h]
  · rcases hres : fail_job s jid err tok now jit with e | p
    · simp [fail_job, hfind] at hres
    · refine ⟨p.1, p.2, rfl, ?_⟩
      simp only [fail_job, hfind, h] at hres
      simp only [Except.ok.injEq] at hres
      rw [← hres]
      simp [h]

/-- C9 witness: a spurious late `fail` with a bogus token drags a
`SUCCEEDED` job back into the queue. -/
theorem fail_unverified_c9_witness :
    ∃ s' j', fail_job { emptyState with jobs := [{ job0 with status := .succeeded }] }
        0 "late failure" (some 999) 5 0 = .ok (s', j') ∧
      j'.attempts = 1 ∧ (j'.status = .pending ∨ j'.status = .dlq) :=
  fail_unverified_c9 { emptyState with jobs := [{ job0 with status := .succeeded }] }
    0 "late failure" (some 999) 5 0 { job0 with status := .succeeded } rfl

/-- C10: the completion ledger is consulted by `idempotency_key` ALONE
(no `job_id` in the lookup): whenever any `JobCompletion` row carries the
key — the row of a different job included — `complete` returns the
addressed job with the store untouched, so the job is never marked
`SUCCEEDED` and the supplied result is never stored. -/
theorem complete_ledger_global_key_c10 :
    ∀ (s : OrchState) (job_id result_data : ℕ) (lease_token : Option ℕ)
      (k : String) (now : ℚ) (j : Job) (c : JobCompletion),
      findJob s job_id = some j → c ∈ s.completions → c.idem_key = k →
      complete_job s job_id result_data lease_token (some k) now = .ok (s, j) :=
  fun s job_id r tok k now j c hfind hc hk =>
    complete_job_ledger_hit s job_id r tok k now j c hfind hc hk

/-- C10 witness: a ledger row recorded for job 99 blocks the completion
of pending job 0 under the same key — no error, no state change. -/
theorem complete_ledger_global_key_c10_witness :
    complete_job { emptyState with jobs := [job0], completions := [⟨99, "dup"⟩] }
        0 7 none (some "dup") 3
      = .ok ({ emptyState with jobs := [job0], completions := [⟨99, "dup"⟩] }, job0) :=
  complete_ledger_global_key_c10
    { emptyState with jobs := [job0], completions := [⟨99, "dup"⟩] }
    0 7 none "dup" 3 job0 ⟨99, "dup"⟩ rfl (by simp) rfl
